import Mathlib

/-!
Verification development for a two-armed bandit simulation and RNN training
utility library (`bandits.py`, `rnn_utils.py`).

The Python code is shallowly embedded:
* machine floats become `ℚ` (every operation involved is field arithmetic,
  `min`/`max` and comparisons, all exact on the inputs considered);
* numpy random draws become explicit parameters: a uniform draw on `[0,1)`
  becomes a `ℚ` argument `u` with `0 ≤ u < 1` where the claim needs it, a
  Gaussian drift sample becomes an arbitrary `ℚ` argument, `np.random.binomial(1, p)`
  becomes the indicator `if u < p then 1 else 0` of a uniform draw `u`
  (which has exactly the Bernoulli `p` distribution);
* Python exceptions become an explicit `Except PyError` result; methods that
  mutate `self` become functions returning the new object, and a method that
  raises before mutating returns the error together with the unchanged object.
-/

/-- The Python exception kinds that the embedded code can raise. -/
inductive PyError : Type where
  | valueError : PyError
  | assertionError : PyError
  | attributeError : PyError
  | nameError : PyError
  | zeroDivisionError : PyError
  | keyError : PyError
  | indexError : PyError
deriving DecidableEq, Repr

/-! ## `EnvironmentBanditsDrift` (bandits.py)

State: `sigma` (drift magnitude) and `reward_probs` (one probability per arm,
a numpy array of length 2, embedded as a pair). -/

structure EnvironmentBanditsDrift : Type where
  sigma : ℚ
  reward_probs : ℚ × ℚ
deriving DecidableEq, Repr

namespace EnvironmentBanditsDrift

/-- `EnvironmentBanditsDrift.__init__`.  Raises `ValueError` when `sigma < 0`;
otherwise stores `sigma` and calls `_new_sess`, which samples
`reward_probs = np.random.rand(2)`.  The random sample is the explicit
argument `init_probs`. -/
def make (sigma : ℚ) (init_probs : ℚ × ℚ) : Except PyError EnvironmentBanditsDrift :=
  if sigma < 0 then .error .valueError
  else .ok { sigma := sigma, reward_probs := init_probs }

/-- Clamping performed at the end of `step`:
`np.maximum(reward_probs, [0,0])` followed by `np.minimum(reward_probs, [1,1])`. -/
def clamp2 (p : ℚ × ℚ) : ℚ × ℚ :=
  (min (max p.1 0) 1, min (max p.2 0) 1)

/-- The state transition of one `step` call after validation: the drift sample
is added to both reward probabilities and both are clamped to `[0,1]`. -/
def applyDrift (e : EnvironmentBanditsDrift) (drift : ℚ × ℚ) : EnvironmentBanditsDrift :=
  { e with reward_probs := clamp2 (e.reward_probs.1 + drift.1, e.reward_probs.2 + drift.2) }

/-- `EnvironmentBanditsDrift.step`.  Validates `choice ∈ {0, 1}` (raising
`ValueError` before touching any state otherwise), samples the reward as
`np.random.rand() < reward_probs[choice]` (uniform draw `u`), then drifts and
clamps the reward probabilities.  Returns the reward (a 0/1 value) together
with the updated environment; on error the environment is unchanged. -/
def step (e : EnvironmentBanditsDrift) (choice : ℤ) (u : ℚ) (drift : ℚ × ℚ) :
    Except PyError ℚ × EnvironmentBanditsDrift :=
  if choice = 0 ∨ choice = 1 then
    let p := if choice = 0 then e.reward_probs.1 else e.reward_probs.2
    let reward : ℚ := if u < p then 1 else 0
    (.ok reward, e.applyDrift drift)
  else
    (.error .valueError, e)

/-- A finite sequence of `step` calls, one `(choice, u, drift)` triple per
trial, propagating the first raised exception. -/
def stepMany (e : EnvironmentBanditsDrift) :
    List (ℤ × ℚ × ℚ × ℚ) → Except PyError EnvironmentBanditsDrift
  | [] => .ok e
  | (c, u, d1, d2) :: rest =>
    match e.step c u (d1, d2) with
    | (.error err, _) => .error err
    | (.ok _, e1) => e1.stepMany rest

theorem clamp2_mem (p : ℚ × ℚ) :
    0 ≤ (clamp2 p).1 ∧ (clamp2 p).1 ≤ 1 ∧ 0 ≤ (clamp2 p).2 ∧ (clamp2 p).2 ≤ 1 := by
  unfold clamp2
  refine ⟨?_, ?_, ?_, ?_⟩ <;> simp [le_max_iff, min_le_iff]

theorem applyDrift_mem (e : EnvironmentBanditsDrift) (d : ℚ × ℚ) :
    0 ≤ (e.applyDrift d).reward_probs.1 ∧ (e.applyDrift d).reward_probs.1 ≤ 1 ∧
    0 ≤ (e.applyDrift d).reward_probs.2 ∧ (e.applyDrift d).reward_probs.2 ≤ 1 := by
  unfold applyDrift
  exact clamp2_mem _

theorem step_ok (e : EnvironmentBanditsDrift) (c : ℤ) (u : ℚ) (d : ℚ × ℚ)
    (hc : c = 0 ∨ c = 1) :
    e.step c u d =
      (.ok (if u < (if c = 0 then e.reward_probs.1 else e.reward_probs.2) then 1 else 0),
       e.applyDrift d) := by
  unfold step
  rw [if_pos hc]

/-- Along any successful `stepMany` run from a state with in-range reward
probabilities, the final reward probabilities are in range. -/
theorem stepMany_mem (l : List (ℤ × ℚ × ℚ × ℚ)) :
    ∀ e : EnvironmentBanditsDrift,
      (∀ x ∈ l, x.1 = 0 ∨ x.1 = 1) →
      0 ≤ e.reward_probs.1 → e.reward_probs.1 ≤ 1 →
      0 ≤ e.reward_probs.2 → e.reward_probs.2 ≤ 1 →
      ∃ e1, e.stepMany l = .ok e1 ∧
        0 ≤ e1.reward_probs.1 ∧ e1.reward_probs.1 ≤ 1 ∧
        0 ≤ e1.reward_probs.2 ∧ e1.reward_probs.2 ≤ 1 := by
  induction l with
  | nil =>
    intro e _ h1 h2 h3 h4
    exact ⟨e, rfl, h1, h2, h3, h4⟩
  | cons x rest ih =>
    intro e hc h1 h2 h3 h4
    obtain ⟨c, u, d1, d2⟩ := x
    have hc0 : c = 0 ∨ c = 1 := hc _ (List.mem_cons_self _ _)
    have hmem := applyDrift_mem e (d1, d2)
    obtain ⟨e1, he1, hm⟩ :=
      ih (e.applyDrift (d1, d2)) (fun x hx => hc _ (List.mem_cons_of_mem _ hx))
        hmem.1 hmem.2.1 hmem.2.2.1 hmem.2.2.2
    refine ⟨e1, ?_, hm⟩
    rw [stepMany]
    rw [step_ok e c u (d1, d2) hc0]
    exact he1

/-- C1: a drifting environment constructed with `sigma ≥ 0` (i.e. whose
constructor returned normally) and initial probabilities sampled in `[0,1]`
keeps both entries of `reward_probs` inside `[0,1]` after any finite sequence
of `step` calls with valid choices: the initial values are in `[0,1]` and each
step clamps both probabilities to `[0,1]` after adding the drift noise. -/
theorem envDrift_reward_probs_mem_unitInterval
    (sigma : ℚ) (init_probs : ℚ × ℚ) (e : EnvironmentBanditsDrift)
    (hmk : EnvironmentBanditsDrift.make sigma init_probs = .ok e)
    (h1 : 0 ≤ init_probs.1) (h2 : init_probs.1 ≤ 1)
    (h3 : 0 ≤ init_probs.2) (h4 : init_probs.2 ≤ 1)
    (l : List (ℤ × ℚ × ℚ × ℚ))
    (hc : ∀ x ∈ l, x.1 = 0 ∨ x.1 = 1) :
    ∃ e1, e.stepMany l = .ok e1 ∧
      0 ≤ e1.reward_probs.1 ∧ e1.reward_probs.1 ≤ 1 ∧
      0 ≤ e1.reward_probs.2 ∧ e1.reward_probs.2 ≤ 1 := by
  have he : e.reward_probs = init_probs := by
    unfold make at hmk
    by_cases hs : sigma < 0
    · rw [if_pos hs] at hmk; cases hmk
    · rw [if_neg hs] at hmk
      cases hmk
      rfl
  refine stepMany_mem l e hc ?_ ?_ ?_ ?_ <;> rw [he]
  · exact h1
  · exact h2
  · exact h3
  · exact h4

/-- Witness for C1 at a concrete instance: `sigma = 1`, initial probabilities
`(0, 1)`, two steps whose drift pushes far outside `[0,1]`. -/
theorem envDrift_reward_probs_mem_unitInterval_witness :
    ∃ e1, EnvironmentBanditsDrift.stepMany
        { sigma := 1, reward_probs := (0, 1) }
        [(0, 0, 7, -9), (1, 0, -3, 12)] = .ok e1 ∧
      0 ≤ e1.reward_probs.1 ∧ e1.reward_probs.1 ≤ 1 ∧
      0 ≤ e1.reward_probs.2 ∧ e1.reward_probs.2 ≤ 1 :=
  envDrift_reward_probs_mem_unitInterval 1 (0, 1)
    { sigma := 1, reward_probs := (0, 1) } rfl
    (by decide) (by decide) (by decide) (by decide)
    [(0, 0, 7, -9), (1, 0, -3, 12)] (by decide)

/-- C7: the drifting environment validates at the boundary. The constructor
raises `ValueError` exactly when `sigma < 0`, and `step` raises `ValueError`
exactly when the choice is neither 0 nor 1, in which case the environment
(in particular `reward_probs`) is returned unmodified: no reward is sampled
and no drift is applied. -/
theorem envDrift_validation (sigma : ℚ) (init_probs : ℚ × ℚ)
    (e : EnvironmentBanditsDrift) (c : ℤ) (u : ℚ) (d : ℚ × ℚ) :
    (EnvironmentBanditsDrift.make sigma init_probs = .error .valueError ↔ sigma < 0) ∧
    ((∃ e0, EnvironmentBanditsDrift.make sigma init_probs = .ok e0) ↔ ¬ sigma < 0) ∧
    ((e.step c u d).1 = .error .valueError ↔ ¬ (c = 0 ∨ c = 1)) ∧
    (¬ (c = 0 ∨ c = 1) → (e.step c u d).2 = e) := by
  refine ⟨?_, ?_, ?_, ?_⟩
  · unfold make
    by_cases hs : sigma < 0
    · simp [hs]
    · simp [hs]
  · unfold make
    by_cases hs : sigma < 0
    · simp [hs]
    · simp [hs]
  · unfold step
    by_cases hc : c = 0 ∨ c = 1
    · simp [hc]
    · simp [hc]
  · intro hc
    unfold step
    rw [if_neg hc]

/-- Witness for C7 at the spec's concrete instance `sigma = -1/10` (and an
invalid choice 2 for the `step` half). -/
theorem envDrift_validation_witness :
    (EnvironmentBanditsDrift.make (-1/10) (1/2, 1/2) = .error .valueError ↔
      (-1/10 : ℚ) < 0) ∧
    ((∃ e0, EnvironmentBanditsDrift.make (-1/10) (1/2, 1/2) = .ok e0) ↔
      ¬ (-1/10 : ℚ) < 0) ∧
    ((EnvironmentBanditsDrift.step { sigma := 1/10, reward_probs := (1/2, 1/2) }
        2 (1/2) (0, 0)).1 = .error .valueError ↔ ¬ ((2 : ℤ) = 0 ∨ (2 : ℤ) = 1)) ∧
    (¬ ((2 : ℤ) = 0 ∨ (2 : ℤ) = 1) →
      (EnvironmentBanditsDrift.step { sigma := 1/10, reward_probs := (1/2, 1/2) }
        2 (1/2) (0, 0)).2 = { sigma := 1/10, reward_probs := (1/2, 1/2) }) :=
  envDrift_validation (-1/10) (1/2, 1/2)
    { sigma := 1/10, reward_probs := (1/2, 1/2) } 2 (1/2) (0, 0)

end EnvironmentBanditsDrift

/-! ## `AgentQ` (bandits.py)

State: learning rate `alpha`, softmax temperature `beta`, and the per-arm
value estimates `q` (a numpy array of length 2, embedded as a pair).
Valid choices index `q`, so they are embedded as `Fin 2`. -/

structure AgentQ : Type where
  alpha : ℚ
  beta : ℚ
  q : ℚ × ℚ
deriving DecidableEq, Repr

namespace AgentQ

/-- `AgentQ.new_sess`: resets the value estimates to `0.5 * np.ones(2)`. -/
def new_sess (a : AgentQ) : AgentQ :=
  { a with q := (1/2, 1/2) }

/-- `AgentQ.__init__`: stores `alpha` and `beta` and calls `new_sess`. -/
def make (alpha beta : ℚ) : AgentQ :=
  new_sess { alpha := alpha, beta := beta, q := (0, 0) }

/-- Read `q[i]` for a valid index `i ∈ {0, 1}`. -/
def qval (a : AgentQ) (i : Fin 2) : ℚ :=
  if i = 0 then a.q.1 else a.q.2

/-- `AgentQ.update`: `q[choice] = (1 - alpha) * q[choice] + alpha * reward`;
the other entry of `q` and all other attributes are untouched. -/
def update (a : AgentQ) (choice : Fin 2) (reward : ℚ) : AgentQ :=
  if choice = 0 then
    { a with q := ((1 - a.alpha) * a.q.1 + a.alpha * reward, a.q.2) }
  else
    { a with q := (a.q.1, (1 - a.alpha) * a.q.2 + a.alpha * reward) }

/-- A finite sequence of `update` calls, one `(choice, reward)` pair per
trial. -/
def runUpdates (a : AgentQ) : List (Fin 2 × ℚ) → AgentQ
  | [] => a
  | (c, r) :: rest => runUpdates (a.update c r) rest

theorem update_alpha (a : AgentQ) (c : Fin 2) (r : ℚ) :
    (a.update c r).alpha = a.alpha := by
  unfold update
  by_cases h : c = 0 <;> simp [h]

theorem runUpdates_alpha (l : List (Fin 2 × ℚ)) :
    ∀ a : AgentQ, (runUpdates a l).alpha = a.alpha := by
  induction l with
  | nil => intro a; rfl
  | cons p rest ih =>
    intro a
    obtain ⟨c, r⟩ := p
    rw [runUpdates, ih, update_alpha]

/-- One update keeps each `q` entry inside `[0,1]` when `alpha ∈ [0,1]` and
the reward is in `[0,1]`. -/
theorem update_q_mem_Icc (a : AgentQ) (c : Fin 2) (r : ℚ)
    (ha0 : 0 ≤ a.alpha) (ha1 : a.alpha ≤ 1) (hr0 : 0 ≤ r) (hr1 : r ≤ 1)
    (h1 : 0 ≤ a.q.1) (h2 : a.q.1 ≤ 1) (h3 : 0 ≤ a.q.2) (h4 : a.q.2 ≤ 1) :
    0 ≤ (a.update c r).q.1 ∧ (a.update c r).q.1 ≤ 1 ∧
    0 ≤ (a.update c r).q.2 ∧ (a.update c r).q.2 ≤ 1 := by
  unfold update
  by_cases h : c = 0 <;>
    simp only [h, if_true, if_false, reduceIte] <;>
    refine ⟨?_, ?_, ?_, ?_⟩ <;> nlinarith

/-- One update keeps each `q` entry strictly inside `(0,1)` when
`alpha ∈ (0,1)` and the reward is in `[0,1]`. -/
theorem update_q_mem_Ioo (a : AgentQ) (c : Fin 2) (r : ℚ)
    (ha0 : 0 < a.alpha) (ha1 : a.alpha < 1) (hr0 : 0 ≤ r) (hr1 : r ≤ 1)
    (h1 : 0 < a.q.1) (h2 : a.q.1 < 1) (h3 : 0 < a.q.2) (h4 : a.q.2 < 1) :
    0 < (a.update c r).q.1 ∧ (a.update c r).q.1 < 1 ∧
    0 < (a.update c r).q.2 ∧ (a.update c r).q.2 < 1 := by
  unfold update
  by_cases h : c = 0 <;>
    simp only [h, if_true, if_false, reduceIte] <;>
    refine ⟨?_, ?_, ?_, ?_⟩ <;> nlinarith

/-- Invariant: any sequence of updates with rewards in `{0,1}` keeps `q`
inside `[0,1]²` when `alpha ∈ [0,1]`. -/
theorem runUpdates_q_mem_Icc (l : List (Fin 2 × ℚ)) :
    ∀ a : AgentQ, (∀ p ∈ l, p.2 = (0 : ℚ) ∨ p.2 = 1) →
      0 ≤ a.alpha → a.alpha ≤ 1 →
      0 ≤ a.q.1 → a.q.1 ≤ 1 → 0 ≤ a.q.2 → a.q.2 ≤ 1 →
      0 ≤ (runUpdates a l).q.1 ∧ (runUpdates a l).q.1 ≤ 1 ∧
      0 ≤ (runUpdates a l).q.2 ∧ (runUpdates a l).q.2 ≤ 1 := by
  induction l with
  | nil => intro a _ _ _ h1 h2 h3 h4; exact ⟨h1, h2, h3, h4⟩
  | cons p rest ih =>
    intro a hrw ha0 ha1 h1 h2 h3 h4
    obtain ⟨c, r⟩ := p
    have hr : r = 0 ∨ r = 1 := hrw _ (List.mem_cons_self _ _)
    have hr0 : 0 ≤ r := by rcases hr with h | h <;> rw [h] <;> norm_num
    have hr1 : r ≤ 1 := by rcases hr with h | h <;> rw [h] <;> norm_num
    have hm := update_q_mem_Icc a c r ha0 ha1 hr0 hr1 h1 h2 h3 h4
    rw [runUpdates]
    exact ih (a.update c r) (fun p hp => hrw _ (List.mem_cons_of_mem _ hp))
      (by rw [update_alpha]; exact ha0) (by rw [update_alpha]; exact ha1)
      hm.1 hm.2.1 hm.2.2.1 hm.2.2.2

/-- Invariant: any sequence of updates with rewards in `{0,1}` keeps `q`
strictly inside `(0,1)²` when `alpha ∈ (0,1)`. -/
theorem runUpdates_q_mem_Ioo (l : List (Fin 2 × ℚ)) :
    ∀ a : AgentQ, (∀ p ∈ l, p.2 = (0 : ℚ) ∨ p.2 = 1) →
      0 < a.alpha → a.alpha < 1 →
      0 < a.q.1 → a.q.1 < 1 → 0 < a.q.2 → a.q.2 < 1 →
      0 < (runUpdates a l).q.1 ∧ (runUpdates a l).q.1 < 1 ∧
      0 < (runUpdates a l).q.2 ∧ (runUpdates a l).q.2 < 1 := by
  induction l with
  | nil => intro a _ _ _ h1 h2 h3 h4; exact ⟨h1, h2, h3, h4⟩
  | cons p rest ih =>
    intro a hrw ha0 ha1 h1 h2 h3 h4
    obtain ⟨c, r⟩ := p
    have hr : r = 0 ∨ r = 1 := hrw _ (List.mem_cons_self _ _)
    have hr0 : 0 ≤ r := by rcases hr with h | h <;> rw [h] <;> norm_num
    have hr1 : r ≤ 1 := by rcases hr with h | h <;> rw [h] <;> norm_num
    have hm := update_q_mem_Ioo a c r ha0 ha1 hr0 hr1 h1 h2 h3 h4
    rw [runUpdates]
    exact ih (a.update c r) (fun p hp => hrw _ (List.mem_cons_of_mem _ hp))
      (by rw [update_alpha]; exact ha0) (by rw [update_alpha]; exact ha1)
      hm.1 hm.2.1 hm.2.2.1 hm.2.2.2

/-- C10: every `AgentQ` state reachable from `new_sess` (i.e. from
`q = (0.5, 0.5)`) by updates with choices in `{0,1}` and rewards in `{0,1}`
has both entries of `q` in `[0,1]` when `alpha ∈ [0,1]`, and both entries
strictly inside `(0,1)` when `alpha ∈ (0,1)`. -/
theorem agentQ_q_bounded (alpha beta : ℚ) (l : List (Fin 2 × ℚ))
    (hrw : ∀ p ∈ l, p.2 = (0 : ℚ) ∨ p.2 = 1) :
    (0 ≤ alpha → alpha ≤ 1 →
      0 ≤ (runUpdates (make alpha beta) l).q.1 ∧
      (runUpdates (make alpha beta) l).q.1 ≤ 1 ∧
      0 ≤ (runUpdates (make alpha beta) l).q.2 ∧
      (runUpdates (make alpha beta) l).q.2 ≤ 1) ∧
    (0 < alpha → alpha < 1 →
      0 < (runUpdates (make alpha beta) l).q.1 ∧
      (runUpdates (make alpha beta) l).q.1 < 1 ∧
      0 < (runUpdates (make alpha beta) l).q.2 ∧
      (runUpdates (make alpha beta) l).q.2 < 1) := by
  constructor
  · intro ha0 ha1
    refine runUpdates_q_mem_Icc l (make alpha beta) hrw ha0 ha1 ?_ ?_ ?_ ?_ <;> norm_num [make, new_sess]
  · intro ha0 ha1
    refine runUpdates_q_mem_Ioo l (make alpha beta) hrw ha0 ha1 ?_ ?_ ?_ ?_ <;> norm_num [make, new_sess]

/-- Witness for C10 with `alpha = 1/2` and two concrete updates. -/
theorem agentQ_q_bounded_witness :
    (0 ≤ mkRat 1 2 → mkRat 1 2 ≤ 1 →
      0 ≤ (runUpdates (make (mkRat 1 2) 3) [(0, 1), (1, 0)]).q.1 ∧
      (runUpdates (make (mkRat 1 2) 3) [(0, 1), (1, 0)]).q.1 ≤ 1 ∧
      0 ≤ (runUpdates (make (mkRat 1 2) 3) [(0, 1), (1, 0)]).q.2 ∧
      (runUpdates (make (mkRat 1 2) 3) [(0, 1), (1, 0)]).q.2 ≤ 1) ∧
    (0 < mkRat 1 2 → mkRat 1 2 < 1 →
      0 < (runUpdates (make (mkRat 1 2) 3) [(0, 1), (1, 0)]).q.1 ∧
      (runUpdates (make (mkRat 1 2) 3) [(0, 1), (1, 0)]).q.1 < 1 ∧
      0 < (runUpdates (make (mkRat 1 2) 3) [(0, 1), (1, 0)]).q.2 ∧
      (runUpdates (make (mkRat 1 2) 3) [(0, 1), (1, 0)]).q.2 < 1) :=
  agentQ_q_bounded (mkRat 1 2) 3 [(0, 1), (1, 0)] (by decide)

theorem update_qval_choice (a : AgentQ) (c : Fin 2) (r : ℚ) :
    qval (a.update c r) c = (1 - a.alpha) * qval a c + a.alpha * r := by
  fin_cases c <;> simp [update, qval]

theorem update_qval_other (a : AgentQ) (c : Fin 2) (r : ℚ) :
    qval (a.update c r) (1 - c) = qval a (1 - c) := by
  fin_cases c <;> simp [update, qval]

/-- C4: in any reachable state of an `AgentQ` with `alpha ∈ (0,1)`, updating
with reward 1 strictly increases `q[choice]`, updating with reward 0 strictly
decreases it, and either update (indeed, an update with any reward) leaves
`q[1 - choice]` unchanged. -/
theorem agentQ_update_direction (alpha beta : ℚ)
    (h0 : 0 < alpha) (h1 : alpha < 1) (l : List (Fin 2 × ℚ))
    (hrw : ∀ p ∈ l, p.2 = (0 : ℚ) ∨ p.2 = 1) (choice : Fin 2) :
    qval (runUpdates (make alpha beta) l) choice <
      qval ((runUpdates (make alpha beta) l).update choice 1) choice ∧
    qval ((runUpdates (make alpha beta) l).update choice 0) choice <
      qval (runUpdates (make alpha beta) l) choice ∧
    (∀ r : ℚ, qval ((runUpdates (make alpha beta) l).update choice r) (1 - choice) =
      qval (runUpdates (make alpha beta) l) (1 - choice)) := by
  have hmem := runUpdates_q_mem_Ioo l (make alpha beta) hrw
    (by simpa [make, new_sess] using h0) (by simpa [make, new_sess] using h1)
    (by norm_num [make, new_sess]) (by norm_num [make, new_sess])
    (by norm_num [make, new_sess]) (by norm_num [make, new_sess])
  have halpha : (runUpdates (make alpha beta) l).alpha = alpha := by
    rw [runUpdates_alpha, make, new_sess]
  set a := runUpdates (make alpha beta) l with ha
  obtain ⟨hq1, hq2, hq3, hq4⟩ := hmem
  have hqc : 0 < qval a choice ∧ qval a choice < 1 := by
    unfold qval
    split
    · exact ⟨hq1, hq2⟩
    · exact ⟨hq3, hq4⟩
  refine ⟨?_, ?_, fun r => update_qval_other a choice r⟩
  · rw [update_qval_choice, halpha]
    nlinarith [hqc.1, hqc.2]
  · rw [update_qval_choice, halpha]
    nlinarith [hqc.1, hqc.2]

/-- Witness for C4 with `alpha = 1/2`, one prior update, choice 1. -/
theorem agentQ_update_direction_witness :
    qval (runUpdates (make (mkRat 1 2) 3) [(0, 1)]) 1 <
      qval ((runUpdates (make (mkRat 1 2) 3) [(0, 1)]).update 1 1) 1 ∧
    qval ((runUpdates (make (mkRat 1 2) 3) [(0, 1)]).update 1 0) 1 <
      qval (runUpdates (make (mkRat 1 2) 3) [(0, 1)]) 1 ∧
    (∀ r : ℚ, qval ((runUpdates (make (mkRat 1 2) 3) [(0, 1)]).update 1 r) (1 - 1) =
      qval (runUpdates (make (mkRat 1 2) 3) [(0, 1)]) (1 - 1)) :=
  agentQ_update_direction (mkRat 1 2) 3 (by decide) (by decide) [(0, 1)] (by decide) 1

end AgentQ

/-! ## `EnvironmentBanditsFlips` (bandits.py)

State: the three construction parameters, the binary block id, and the pair
`reward_probabilities` (a Python list of length 2, embedded as a pair).
`np.random.binomial(1, p)` draws are embedded as the indicator `u < p` of a
uniform draw `u` on `[0,1)`. -/

structure EnvironmentBanditsFlips : Type where
  block_flip_prob : ℚ
  reward_prob_high : ℚ
  reward_prob_low : ℚ
  block : ℕ
  reward_probabilities : ℚ × ℚ
deriving DecidableEq, Repr

namespace EnvironmentBanditsFlips

/-- `EnvironmentBanditsFlips.new_block`: flips the block and assigns
`(high, low)` to the arms when the new block is 1, `(low, high)` otherwise. -/
def new_block (e : EnvironmentBanditsFlips) : EnvironmentBanditsFlips :=
  let b := 1 - e.block
  { e with
    block := b
    reward_probabilities :=
      if b = 1 then (e.reward_prob_high, e.reward_prob_low)
      else (e.reward_prob_low, e.reward_prob_high) }

/-- `EnvironmentBanditsFlips.__init__`: stores the parameters, draws a random
starting block `b0 = np.random.binomial(1, 0.5)` (the explicit argument) and
calls `new_block`.  (`reward_probabilities` does not exist before `new_block`
assigns it; the placeholder `(0, 0)` is immediately overwritten.) -/
def make (block_flip_prob reward_prob_high reward_prob_low : ℚ) (b0 : ℕ) :
    EnvironmentBanditsFlips :=
  new_block
    { block_flip_prob := block_flip_prob
      reward_prob_high := reward_prob_high
      reward_prob_low := reward_prob_low
      block := b0
      reward_probabilities := (0, 0) }

/-- Python indexing `l[choice]` into the two-element list
`reward_probabilities` (negative indices wrap; others raise `IndexError`). -/
def listIndex2 (p : ℚ × ℚ) (c : ℤ) : Except PyError ℚ :=
  if c = 0 ∨ c = -2 then .ok p.1
  else if c = 1 ∨ c = -1 then .ok p.2
  else .error .indexError

/-- `EnvironmentBanditsFlips.next_trial`: reads the reward probability of the
chosen arm from the *current* `reward_probabilities`, samples the reward with
it (uniform draw `ur`), and only then checks whether to flip the block
(uniform draw `uf` against `block_flip_prob`), so the flip affects future
trials only.  Returns the reward with the updated environment. -/
def next_trial (e : EnvironmentBanditsFlips) (choice : ℤ) (ur uf : ℚ) :
    Except PyError ℚ × EnvironmentBanditsFlips :=
  match listIndex2 e.reward_probabilities choice with
  | .error err => (.error err, e)
  | .ok reward_prob_trial =>
    let reward : ℚ := if ur < reward_prob_trial then 1 else 0
    let e1 := if uf < e.block_flip_prob then e.new_block else e
    (.ok reward, e1)

/-- A finite sequence of `next_trial` calls, one `(choice, ur, uf)` triple per
trial. -/
def next_trials (e : EnvironmentBanditsFlips) :
    List (ℤ × ℚ × ℚ) → Except PyError EnvironmentBanditsFlips
  | [] => .ok e
  | (c, ur, uf) :: rest =>
    match e.next_trial c ur uf with
    | (.error err, _) => .error err
    | (.ok _, e1) => e1.next_trials rest

theorem new_block_block (e : EnvironmentBanditsFlips) :
    (new_block e).block = 1 - e.block := rfl

theorem new_block_flip_prob (e : EnvironmentBanditsFlips) :
    (new_block e).block_flip_prob = e.block_flip_prob := rfl

theorem next_trial_ok (e : EnvironmentBanditsFlips) (c : ℤ) (ur uf : ℚ)
    (hc : c = 0 ∨ c = 1) (hf0 : 0 ≤ uf) (hf1 : uf < 1) (hp : e.block_flip_prob = 1) :
    e.next_trial c ur uf =
      (.ok (if ur < (if c = 0 then e.reward_probabilities.1
                     else e.reward_probabilities.2) then 1 else 0),
       e.new_block) := by
  rcases hc with hc | hc <;> subst hc <;>
    simp [next_trial, listIndex2, hp, hf1]

/-- With `block_flip_prob = 1` and `block ≤ 1`, a successful run of trials
flips the block on every trial, so the block after `k` trials is the parity
`(block + k) % 2`. -/
theorem next_trials_block (l : List (ℤ × ℚ × ℚ)) :
    ∀ e : EnvironmentBanditsFlips,
      (∀ x ∈ l, (x.1 = 0 ∨ x.1 = 1) ∧ 0 ≤ x.2.2 ∧ x.2.2 < 1) →
      e.block_flip_prob = 1 → e.block ≤ 1 →
      ∃ e1, e.next_trials l = .ok e1 ∧ e1.block = (e.block + l.length) % 2 := by
  induction l with
  | nil =>
    intro e _ _ hb
    refine ⟨e, rfl, ?_⟩
    simp only [List.length_nil, Nat.add_zero]
    omega
  | cons x rest ih =>
    intro e hx hp hb
    obtain ⟨c, ur, uf⟩ := x
    obtain ⟨hc, hf0, hf1⟩ := hx _ (List.mem_cons_self _ _)
    obtain ⟨e1, he1, hblk⟩ := ih e.new_block
      (fun y hy => hx _ (List.mem_cons_of_mem _ hy))
      (by rw [new_block_flip_prob]; exact hp)
      (by rw [new_block_block]; omega)
    refine ⟨e1, ?_, ?_⟩
    · rw [next_trials, next_trial_ok e c ur uf hc hf0 hf1 hp]
      exact he1
    · rw [hblk, new_block_block, List.length_cons]
      omega

/-- C5: for a flipping environment with `block_flip_prob = 1` in a reachable
state (binary block, probabilities assigned according to the block), every
`next_trial` call with a valid choice flips the block exactly once *after*
sampling the reward: the block after the call is `1 - block`, the high/low
assignment is swapped (so it alternates on consecutive trials, as the run in
the last conjunct shows), and the reward is sampled from the pre-flip
probability of the chosen arm. -/
theorem envFlips_alternates (e : EnvironmentBanditsFlips)
    (hb : e.block ≤ 1)
    (hcons : e.reward_probabilities =
      (if e.block = 1 then (e.reward_prob_high, e.reward_prob_low)
       else (e.reward_prob_low, e.reward_prob_high)))
    (hp : e.block_flip_prob = 1)
    (c : ℤ) (ur uf : ℚ) (hc : c = 0 ∨ c = 1) (hf0 : 0 ≤ uf) (hf1 : uf < 1) :
    (e.next_trial c ur uf).2.block = 1 - e.block ∧
    (e.next_trial c ur uf).2.reward_probabilities =
      (e.reward_probabilities.2, e.reward_probabilities.1) ∧
    (e.next_trial c ur uf).1 =
      .ok (if ur < (if c = 0 then e.reward_probabilities.1
                    else e.reward_probabilities.2) then 1 else 0) ∧
    (∀ l : List (ℤ × ℚ × ℚ),
      (∀ x ∈ l, (x.1 = 0 ∨ x.1 = 1) ∧ 0 ≤ x.2.2 ∧ x.2.2 < 1) →
      ∃ e1, e.next_trials l = .ok e1 ∧ e1.block = (e.block + l.length) % 2) := by
  rw [next_trial_ok e c ur uf hc hf0 hf1 hp]
  refine ⟨new_block_block e, ?_, rfl, ?_⟩
  · rw [hcons]
    unfold new_block
    interval_cases h : e.block <;> simp
  · intro l hl
    exact next_trials_block l e hl hp hb

/-- Witness for C5: a consistent environment in block 0 with `high = 1`,
`low = 0`, flip probability 1, choice 1, and a three-trial run. -/
theorem envFlips_alternates_witness :
    (EnvironmentBanditsFlips.next_trial
        { block_flip_prob := 1, reward_prob_high := 1, reward_prob_low := 0,
          block := 0, reward_probabilities := (0, 1) } 1 0 0).2.block = 1 - 0 ∧
    (EnvironmentBanditsFlips.next_trial
        { block_flip_prob := 1, reward_prob_high := 1, reward_prob_low := 0,
          block := 0, reward_probabilities := (0, 1) } 1 0 0).2.reward_probabilities =
      (((0 : ℚ), (1 : ℚ)).2, ((0 : ℚ), (1 : ℚ)).1) ∧
    (EnvironmentBanditsFlips.next_trial
        { block_flip_prob := 1, reward_prob_high := 1, reward_prob_low := 0,
          block := 0, reward_probabilities := (0, 1) } 1 0 0).1 =
      .ok (if (0 : ℚ) < (if (1 : ℤ) = 0 then (((0 : ℚ), (1 : ℚ))).1
                         else (((0 : ℚ), (1 : ℚ))).2) then 1 else 0) ∧
    (∀ l : List (ℤ × ℚ × ℚ),
      (∀ x ∈ l, (x.1 = 0 ∨ x.1 = 1) ∧ 0 ≤ x.2.2 ∧ x.2.2 < 1) →
      ∃ e1, EnvironmentBanditsFlips.next_trials
          { block_flip_prob := 1, reward_prob_high := 1, reward_prob_low := 0,
            block := 0, reward_probabilities := (0, 1) } l = .ok e1 ∧
        e1.block = (0 + l.length) % 2) :=
  envFlips_alternates
    { block_flip_prob := 1, reward_prob_high := 1, reward_prob_low := 0,
      block := 0, reward_probabilities := (0, 1) }
    (by decide) (by decide) (by decide) 1 0 0 (by decide) (by decide) (by decide)

end EnvironmentBanditsFlips

/-! ## `run_experiment` (bandits.py)

`run_experiment` is duck-typed: it calls `environment.reward_probs` and
`environment.step(choice)` on whatever object it is given, and the
`Environment` union type admits both environment classes.  An environment is
therefore embedded as a record of *optional* attributes: `none` models an
attribute the class does not define, whose lookup raises `AttributeError`.
An agent is any stateful choice policy; its (possibly random) choice at trial
`t` is `get_choice t state`. -/

structure BanditSession : Type where
  choices : List ℚ
  rewards : List ℚ
  reward_probs : List (ℚ × ℚ)
  n_trials : ℕ
deriving DecidableEq, Repr

/-- One logged trial of `run_experiment`: the pre-trial reward probabilities,
the agent's choice, and the sampled reward. -/
structure TrialLog : Type where
  probs : ℚ × ℚ
  choice : ℤ
  reward : ℚ
deriving DecidableEq, Repr

structure AgentObject (A : Type) : Type where
  state : A
  get_choice : ℕ → A → ℤ
  update : A → ℤ → ℚ → A

structure EnvObject (S : Type) : Type where
  state : S
  reward_probs : Option (S → ℚ × ℚ)
  step : Option (S → ℤ → Except PyError ℚ × S)
  reward_probabilities : Option (S → ℚ × ℚ)
  next_trial : Option (S → ℤ → Except PyError ℚ × S)

/-- The trial loop of `run_experiment`, from trial `t`, for `m` more trials:
record `environment.reward_probs`, ask the agent for a choice, call
`environment.step(choice)`, update the agent, log the trial.  Any exception
(a missing attribute, or an error raised by `step`) aborts the run. -/
def runSteps {A S : Type} (ag : AgentObject A) (env : EnvObject S) :
    ℕ → ℕ → A → S → Except PyError (List TrialLog)
  | _, 0, _, _ => .ok []
  | t, m + 1, a, s =>
    match env.reward_probs with
    | none => .error .attributeError
    | some rp =>
      let probs := rp s
      let choice := ag.get_choice t a
      match env.step with
      | none => .error .attributeError
      | some stp =>
        match stp s choice with
        | (.error err, _) => .error err
        | (.ok reward, s1) =>
          match runSteps ag env (t + 1) m (ag.update a choice reward) s1 with
          | .error err => .error err
          | .ok rest => .ok ({ probs := probs, choice := choice, reward := reward } :: rest)

/-- `run_experiment(agent, environment, n_trials)`: runs the trial loop from
trial 0 and packs the logs into a `BanditSession` (numpy float arrays for
choices and rewards, hence the casts to `ℚ`). -/
def run_experiment {A S : Type} (ag : AgentObject A) (env : EnvObject S)
    (n_trials : ℕ) : Except PyError BanditSession :=
  match runSteps ag env 0 n_trials ag.state env.state with
  | .error err => .error err
  | .ok logs =>
    .ok { choices := logs.map (fun lg => (lg.choice : ℚ))
          rewards := logs.map (fun lg => lg.reward)
          reward_probs := logs.map (fun lg => lg.probs)
          n_trials := n_trials }

namespace EnvironmentBanditsDrift

/-- The drifting environment as a duck-typed object: it defines
`reward_probs` and `step`, and defines neither `reward_probabilities` nor
`next_trial`.  The run state pairs the environment with the index of the next
random draw (`us` = uniform reward draws, `ds` = Gaussian drift draws). -/
def toEnvObject (e : EnvironmentBanditsDrift) (us : ℕ → ℚ) (ds : ℕ → ℚ × ℚ) :
    EnvObject (EnvironmentBanditsDrift × ℕ) where
  state := (e, 0)
  reward_probs := some (fun s => s.1.reward_probs)
  step := some (fun s c =>
    let r := s.1.step c (us s.2) (ds s.2)
    (r.1, (r.2, s.2 + 1)))
  reward_probabilities := none
  next_trial := none

/-- The environment state before trial `t + k`, given the state `e` before
trial `t`: the drift transition applied `k` times (its drifts being
`ds t, …, ds (t+k-1)`); the transition does not depend on choices or rewards. -/
def driftFrom (ds : ℕ → ℚ × ℚ) (e : EnvironmentBanditsDrift) (t : ℕ) :
    ℕ → EnvironmentBanditsDrift
  | 0 => e
  | k + 1 => (driftFrom ds e t k).applyDrift (ds (t + k))

theorem driftFrom_shift (ds : ℕ → ℚ × ℚ) (k : ℕ) :
    ∀ (e : EnvironmentBanditsDrift) (t : ℕ),
      driftFrom ds e t (k + 1) = driftFrom ds (e.applyDrift (ds t)) (t + 1) k := by
  induction k with
  | zero => intro e t; rfl
  | succ k ih =>
    intro e t
    have harg : t + (k + 1) = (t + 1) + k := by omega
    show (driftFrom ds e t (k + 1)).applyDrift (ds (t + (k + 1))) =
      (driftFrom ds (e.applyDrift (ds t)) (t + 1) k).applyDrift (ds ((t + 1) + k))
    rw [ih e t, harg]

end EnvironmentBanditsDrift

namespace EnvironmentBanditsFlips

/-- The flipping environment as a duck-typed object: it defines
`reward_probabilities` and `next_trial`, and defines neither `reward_probs`
nor `step` (the attributes `run_experiment` actually uses).  The run state
pairs the environment with the index of the next random draw (`urs` = uniform
reward draws, `ufs` = uniform block-flip draws). -/
def toEnvObject (e : EnvironmentBanditsFlips) (urs ufs : ℕ → ℚ) :
    EnvObject (EnvironmentBanditsFlips × ℕ) where
  state := (e, 0)
  reward_probs := none
  step := none
  reward_probabilities := some (fun s => s.1.reward_probabilities)
  next_trial := some (fun s c =>
    let r := s.1.next_trial c (urs s.2) (ufs s.2)
    (r.1, (r.2, s.2 + 1)))

end EnvironmentBanditsFlips

/-- For an agent whose choices are always in `{0,1}` (as every agent class in
the source is: choices come from `np.random.choice(2, ...)`), the trial loop
over a drifting environment always succeeds, produces one log per trial, logs
the pre-trial reward probabilities of each trial, and logs only 0/1 choices
and rewards. -/
theorem runSteps_drift {A : Type} (ag : AgentObject A) (us : ℕ → ℚ)
    (ds : ℕ → ℚ × ℚ) (e0 : EnvironmentBanditsDrift)
    (hch : ∀ (t : ℕ) (a : A), ag.get_choice t a = 0 ∨ ag.get_choice t a = 1)
    (m : ℕ) :
    ∀ (t : ℕ) (a : A) (e : EnvironmentBanditsDrift),
      ∃ logs : List TrialLog,
        runSteps ag (e0.toEnvObject us ds) t m a (e, t) = .ok logs ∧
        logs.length = m ∧
        logs.map (fun lg => lg.probs) =
          (List.range m).map
            (fun i => (EnvironmentBanditsDrift.driftFrom ds e t i).reward_probs) ∧
        ∀ lg ∈ logs, (lg.choice = 0 ∨ lg.choice = 1) ∧
          (lg.reward = 0 ∨ lg.reward = 1) := by
  induction m with
  | zero =>
    intro t a e
    exact ⟨[], rfl, rfl, rfl, by intro lg h; cases h⟩
  | succ m ih =>
    intro t a e
    have hc := hch t a
    have hstep := EnvironmentBanditsDrift.step_ok e (ag.get_choice t a) (us t) (ds t) hc
    set reward : ℚ :=
      if us t < (if ag.get_choice t a = 0 then e.reward_probs.1 else e.reward_probs.2)
      then 1 else 0 with hreward
    obtain ⟨rest, hrun, hlen, hmap, hmem⟩ :=
      ih (t + 1) (ag.update a (ag.get_choice t a) reward) (e.applyDrift (ds t))
    refine ⟨{ probs := e.reward_probs, choice := ag.get_choice t a, reward := reward } :: rest,
      ?_, ?_, ?_, ?_⟩
    · rw [runSteps]
      simp only [EnvironmentBanditsDrift.toEnvObject] at hrun ⊢
      simp only [hstep, hrun]
    · simp [hlen]
    · rw [List.map_cons, hmap, List.range_succ_eq_map, List.map_cons, List.map_map]
      congr 1
      refine List.map_congr_left ?_
      intro i _
      simp only [Function.comp_apply]
      rw [EnvironmentBanditsDrift.driftFrom_shift]
    · intro lg hlg
      rcases List.mem_cons.mp hlg with h | h
      · subst h
        refine ⟨hc, ?_⟩
        rcases lt_or_ge (us t)
            (if ag.get_choice t a = 0 then e.reward_probs.1 else e.reward_probs.2) with
          hcond | hcond
        · right
          show reward = 1
          rw [hreward, if_pos hcond]
        · left
          show reward = 0
          rw [hreward, if_neg (not_lt.mpr hcond)]
      · exact hmem lg h

/-- C3: `run_experiment` on a drifting environment, with any agent whose
choices are in `{0,1}`, returns a `BanditSession` whose `choices` and
`rewards` have length `n_trials` with every entry in `{0,1}`, whose
`n_trials` field is `n_trials`, and whose `reward_probs` row for trial `t` is
the environment's reward probabilities as they were before trial `t`'s
choice, reward and drift were applied (the drift transition is
choice-independent, so that state is `driftFrom ds e0 0 t`). -/
theorem run_experiment_drift_spec {A : Type} (ag : AgentObject A)
    (us : ℕ → ℚ) (ds : ℕ → ℚ × ℚ) (e0 : EnvironmentBanditsDrift) (n : ℕ)
    (hch : ∀ (t : ℕ) (a : A), ag.get_choice t a = 0 ∨ ag.get_choice t a = 1) :
    ∃ sess : BanditSession,
      run_experiment ag (e0.toEnvObject us ds) n = .ok sess ∧
      sess.choices.length = n ∧
      sess.rewards.length = n ∧
      (∀ c ∈ sess.choices, c = 0 ∨ c = 1) ∧
      (∀ r ∈ sess.rewards, r = 0 ∨ r = 1) ∧
      sess.n_trials = n ∧
      sess.reward_probs =
        (List.range n).map
          (fun t => (EnvironmentBanditsDrift.driftFrom ds e0 0 t).reward_probs) := by
  obtain ⟨logs, hrun, hlen, hmap, hmem⟩ := runSteps_drift ag us ds e0 hch n 0 ag.state e0
  refine ⟨{ choices := logs.map (fun lg => (lg.choice : ℚ))
            rewards := logs.map (fun lg => lg.reward)
            reward_probs := logs.map (fun lg => lg.probs)
            n_trials := n }, ?_, ?_, ?_, ?_, ?_, rfl, hmap⟩
  · unfold run_experiment
    have hst : (e0.toEnvObject us ds).state = (e0, 0) := rfl
    rw [hst, hrun]
  · simp [hlen]
  · simp [hlen]
  · intro c hc
    rw [List.mem_map] at hc
    obtain ⟨lg, hlg, hcast⟩ := hc
    rcases (hmem lg hlg).1 with h | h
    · left
      rw [← hcast, h]
      norm_num
    · right
      rw [← hcast, h]
      norm_num
  · intro r hr
    rw [List.mem_map] at hr
    obtain ⟨lg, hlg, hcast⟩ := hr
    rcases (hmem lg hlg).2 with h | h
    · left
      rw [← hcast, h]
    · right
      rw [← hcast, h]

/-- An agent object that always chooses arm 0 and keeps no state. -/
def constAgent0 : AgentObject Unit where
  state := ()
  get_choice := fun _ _ => 0
  update := fun _ _ _ => ()

/-- Witness for C3 at `n_trials = 100` with a concrete agent, concrete random
streams and a concrete drifting environment. -/
theorem run_experiment_drift_spec_witness :
    ∃ sess : BanditSession,
      run_experiment constAgent0
        (EnvironmentBanditsDrift.toEnvObject { sigma := 1, reward_probs := (0, 1) }
          (fun _ => 0) (fun _ => (0, 0))) 100 = .ok sess ∧
      sess.choices.length = 100 ∧
      sess.rewards.length = 100 ∧
      (∀ c ∈ sess.choices, c = 0 ∨ c = 1) ∧
      (∀ r ∈ sess.rewards, r = 0 ∨ r = 1) ∧
      sess.n_trials = 100 ∧
      sess.reward_probs =
        (List.range 100).map
          (fun t => (EnvironmentBanditsDrift.driftFrom (fun _ => (0, 0))
            { sigma := 1, reward_probs := (0, 1) } 0 t).reward_probs) :=
  run_experiment_drift_spec constAgent0 (fun _ => 0) (fun _ => (0, 0))
    { sigma := 1, reward_probs := (0, 1) } 100 (fun _ _ => Or.inl rfl)

/-- C9: `run_experiment` applied to a flipping environment fails with
`AttributeError` before completing the first trial, for any agent and any
`n_trials ≥ 1`: the runner reads `environment.reward_probs` and calls
`environment.step`, but `EnvironmentBanditsFlips` defines only
`reward_probabilities` and `next_trial`.  In contrast (last conjunct), with a
drifting environment the same runner completes. -/
theorem run_experiment_flips_fails {A : Type} (ag : AgentObject A)
    (urs ufs : ℕ → ℚ) (e : EnvironmentBanditsFlips) (n : ℕ) (hn : 1 ≤ n) :
    run_experiment ag (e.toEnvObject urs ufs) n = .error .attributeError ∧
    (e.toEnvObject urs ufs).reward_probs = none ∧
    (e.toEnvObject urs ufs).step = none ∧
    (e.toEnvObject urs ufs).reward_probabilities.isSome = true ∧
    (e.toEnvObject urs ufs).next_trial.isSome = true ∧
    (∀ (us : ℕ → ℚ) (ds : ℕ → ℚ × ℚ) (e1 : EnvironmentBanditsDrift),
      ∃ sess, run_experiment constAgent0 (e1.toEnvObject us ds) n = .ok sess) := by
  refine ⟨?_, rfl, rfl, rfl, rfl, ?_⟩
  · obtain ⟨m, rfl⟩ : ∃ m, n = m + 1 := ⟨n - 1, by omega⟩
    rfl
  · intro us ds e1
    obtain ⟨sess, hsess, _⟩ :=
      run_experiment_drift_spec constAgent0 us ds e1 n (fun _ _ => Or.inl rfl)
    exact ⟨sess, hsess⟩

/-- Witness for C9 at `n_trials = 1` with a concrete agent and flipping
environment. -/
theorem run_experiment_flips_fails_witness :
    run_experiment constAgent0
      (EnvironmentBanditsFlips.toEnvObject
        { block_flip_prob := 1, reward_prob_high := 1, reward_prob_low := 0,
          block := 0, reward_probabilities := (0, 1) } (fun _ => 0) (fun _ => 0)) 1 =
      .error .attributeError ∧
    (EnvironmentBanditsFlips.toEnvObject
      { block_flip_prob := 1, reward_prob_high := 1, reward_prob_low := 0,
        block := 0, reward_probabilities := (0, 1) } (fun _ => 0)
      (fun _ => 0)).reward_probs = none ∧
    (EnvironmentBanditsFlips.toEnvObject
      { block_flip_prob := 1, reward_prob_high := 1, reward_prob_low := 0,
        block := 0, reward_probabilities := (0, 1) } (fun _ => 0)
      (fun _ => 0)).step = none ∧
    (EnvironmentBanditsFlips.toEnvObject
      { block_flip_prob := 1, reward_prob_high := 1, reward_prob_low := 0,
        block := 0, reward_probabilities := (0, 1) } (fun _ => 0)
      (fun _ => 0)).reward_probabilities.isSome = true ∧
    (EnvironmentBanditsFlips.toEnvObject
      { block_flip_prob := 1, reward_prob_high := 1, reward_prob_low := 0,
        block := 0, reward_probabilities := (0, 1) } (fun _ => 0)
      (fun _ => 0)).next_trial.isSome = true ∧
    (∀ (us : ℕ → ℚ) (ds : ℕ → ℚ × ℚ) (e1 : EnvironmentBanditsDrift),
      ∃ sess, run_experiment constAgent0 (e1.toEnvObject us ds) 1 = .ok sess) :=
  run_experiment_flips_fails constAgent0 (fun _ => 0) (fun _ => 0)
    { block_flip_prob := 1, reward_prob_high := 1, reward_prob_low := 0,
      block := 0, reward_probabilities := (0, 1) } 1 (by decide)

/-! ## `DatasetRNN` (rnn_utils.py)

A numpy 3-D array of shape `[timestep, episode, feature]` is embedded as its
shape (three naturals, `shape0`/`shape1`/`shape2`) together with its entries
as a nested list; `hasShape3` says the entries match the shape.  The
constructor's validation reads only the shape; `__next__` slices the episode
axis of the entries. -/

structure NpArray3 : Type where
  shape0 : ℕ
  shape1 : ℕ
  shape2 : ℕ
  data : List (List (List ℚ))
deriving DecidableEq, Repr

/-- The entries `a` fill out a `[t, e, f]` numpy array: `t` timestep rows,
each holding `e` episodes of `f` features. -/
def hasShape3 (a : List (List (List ℚ))) (t e f : ℕ) : Bool :=
  (a.length == t) &&
    a.all (fun row => (row.length == e) && row.all (fun ep => ep.length == f))

structure DatasetRNN : Type where
  xs : NpArray3
  ys : NpArray3
  batch_size : ℕ
  dataset_size : ℕ
  idx : ℕ
  n_batches : ℕ
deriving DecidableEq, Repr

namespace DatasetRNN

/-- `DatasetRNN.__init__`.  `batch_size = None` defaults to the episode count
`xs.shape[1]`.  Checks, in source order: equal timestep counts, equal episode
counts, and episode count divisible by the batch size, raising `ValueError`
otherwise.  (Python's `%` raises `ZeroDivisionError` when `batch_size` is 0,
before any `ValueError` can be raised for non-divisibility.)  On success
stores the arrays and `batch_size`, sets `dataset_size = xs.shape[1]`,
`idx = 0` and `n_batches = dataset_size // batch_size`. -/
def make (xs ys : NpArray3) (batch_size : Option ℕ) : Except PyError DatasetRNN :=
  let b := batch_size.getD xs.shape1
  if xs.shape0 ≠ ys.shape0 then .error .valueError
  else if xs.shape1 ≠ ys.shape1 then .error .valueError
  else if b = 0 then .error .zeroDivisionError
  else if xs.shape1 % b ≠ 0 then .error .valueError
  else .ok { xs := xs, ys := ys, batch_size := b, dataset_size := xs.shape1,
             idx := 0, n_batches := xs.shape1 / b }

/-- Python slicing `arr[:, start:start+b]`: every timestep row keeps only the
episodes in `[start, start+b)`, with the feature axis untouched. -/
def sliceEpisodes (a : List (List (List ℚ))) (start b : ℕ) : List (List (List ℚ)) :=
  a.map (fun row => (row.drop start).take b)

/-- `DatasetRNN.__next__`: takes the chunk `[idx, idx + batch_size)`, asserts
`end <= dataset_size`, advances the cursor (wrapping to 0 exactly when the
chunk ends at the dataset boundary), and returns the `xs` and `ys` chunks. -/
def next (d : DatasetRNN) :
    Except PyError ((List (List (List ℚ)) × List (List (List ℚ))) × DatasetRNN) :=
  if d.idx + d.batch_size ≤ d.dataset_size then
    let idx1 := if d.idx + d.batch_size = d.dataset_size then 0 else d.idx + d.batch_size
    .ok ((sliceEpisodes d.xs.data d.idx d.batch_size,
          sliceEpisodes d.ys.data d.idx d.batch_size),
         { d with idx := idx1 })
  else .error .assertionError

/-- The dataset state after `k` calls to `__next__`. -/
def nextStateN (d : DatasetRNN) : ℕ → Except PyError DatasetRNN
  | 0 => .ok d
  | k + 1 =>
    match d.nextStateN k with
    | .error e => .error e
    | .ok d1 =>
      match d1.next with
      | .error e => .error e
      | .ok (_, d2) => .ok d2

/-- The batch returned by the `k`-th call to `__next__` (counting from 0). -/
def kthBatch (d : DatasetRNN) (k : ℕ) :
    Except PyError (List (List (List ℚ)) × List (List (List ℚ))) :=
  match d.nextStateN k with
  | .error e => .error e
  | .ok d1 =>
    match d1.next with
    | .error e => .error e
    | .ok (batch, _) => .ok batch

end DatasetRNN

/-- C8: for a positive batch size, the `DatasetRNN` constructor raises
`ValueError` exactly when the inputs are malformed — different timestep
counts, different episode counts, or episode count not divisible by the batch
size — and otherwise constructs the dataset. -/
theorem datasetRNN_make_validation (xs ys : NpArray3) (b : ℕ) (hb : 1 ≤ b) :
    (DatasetRNN.make xs ys (some b) = .error .valueError ↔
      (xs.shape0 ≠ ys.shape0 ∨ xs.shape1 ≠ ys.shape1 ∨ ¬ b ∣ xs.shape1)) ∧
    ((∃ d, DatasetRNN.make xs ys (some b) = .ok d) ↔
      (xs.shape0 = ys.shape0 ∧ xs.shape1 = ys.shape1 ∧ b ∣ xs.shape1)) := by
  have hb0 : ¬ b = 0 := by omega
  have hdvd : ∀ m : ℕ, m % b = 0 ↔ b ∣ m := fun m => Nat.dvd_iff_mod_eq_zero.symm
  by_cases h1 : xs.shape0 = ys.shape0 <;>
    by_cases h2 : xs.shape1 = ys.shape1 <;>
    by_cases h3 : b ∣ ys.shape1 <;>
    simp [DatasetRNN.make, h1, h2, h3, hb0, hdvd]

/-- Witness for C8 at the spec's concrete instance: 10 episodes and
`batch_size = 3` (malformed: 3 does not divide 10). -/
theorem datasetRNN_make_validation_witness :
    (DatasetRNN.make ⟨5, 10, 3, []⟩ ⟨5, 10, 1, []⟩ (some 3) = .error .valueError ↔
      ((5 : ℕ) ≠ 5 ∨ (10 : ℕ) ≠ 10 ∨ ¬ (3 : ℕ) ∣ 10)) ∧
    ((∃ d, DatasetRNN.make ⟨5, 10, 3, []⟩ ⟨5, 10, 1, []⟩ (some 3) = .ok d) ↔
      ((5 : ℕ) = 5 ∧ (10 : ℕ) = 10 ∧ (3 : ℕ) ∣ 10)) :=
  datasetRNN_make_validation ⟨5, 10, 3, []⟩ ⟨5, 10, 1, []⟩ 3 (by decide)

namespace DatasetRNN

/-- One `__next__` call on a dataset whose cursor sits at batch boundary
`j * b` with `j < n` and `n * b` episodes: the assertion passes, the slice
`[j*b, j*b + b)` is served, and the cursor wraps to 0 exactly when the next
batch would end at the boundary. -/
theorem next_at (xs ys : NpArray3) (b E n j : ℕ)
    (hb : 0 < b) (hE : E = n * b) (hj : j < n) :
    next ⟨xs, ys, b, E, j * b, n⟩ =
      .ok ((sliceEpisodes xs.data (j * b) b, sliceEpisodes ys.data (j * b) b),
           ⟨xs, ys, b, E, if j + 1 = n then 0 else (j + 1) * b, n⟩) := by
  have hle : j * b + b ≤ E := by
    calc j * b + b = (j + 1) * b := by ring
    _ ≤ n * b := Nat.mul_le_mul_right b hj
    _ = E := hE.symm
  simp only [next, if_pos hle]
  by_cases hend : j + 1 = n
  · have heq : j * b + b = E := by
      rw [hE, ← hend]
      ring
    rw [if_pos heq, if_pos hend]
  · have hlt : j * b + b < E := by
      calc j * b + b = (j + 1) * b := by ring
      _ < n * b := (mul_lt_mul_right hb).mpr (by omega)
      _ = E := hE.symm
    rw [if_neg (Nat.ne_of_lt hlt), if_neg hend]
    have hx : j * b + b = (j + 1) * b := by ring
    rw [hx]

theorem succ_mod_mul (k n b : ℕ) (hn : 0 < n) :
    (if k % n + 1 = n then 0 else (k % n + 1) * b) = ((k + 1) % n) * b := by
  by_cases hend : k % n + 1 = n
  · rw [if_pos hend]
    have h2 : (k + 1) % n = 0 := by
      by_cases h1 : n = 1
      · subst h1
        simp [Nat.mod_one]
      · rw [Nat.add_mod, Nat.mod_eq_of_lt (show 1 < n by omega), hend, Nat.mod_self]
    rw [h2, Nat.zero_mul]
  · rw [if_neg hend]
    have hklt : k % n < n := Nat.mod_lt k hn
    have hlt : k % n + 1 < n := by omega
    have h2 : (k + 1) % n = k % n + 1 := by
      rw [Nat.add_mod, Nat.mod_eq_of_lt (show 1 < n by omega), Nat.mod_eq_of_lt hlt]
    rw [h2]

/-- From a freshly constructed dataset (`idx = 0`) with `n * b` episodes, the
cursor after `k` calls to `__next__` is `(k % n) * b`, and no call fails. -/
theorem nextStateN_cyclic (xs ys : NpArray3) (b E n : ℕ)
    (hb : 0 < b) (hE : E = n * b) (hn : 0 < n) :
    ∀ k : ℕ, nextStateN ⟨xs, ys, b, E, 0, n⟩ k = .ok ⟨xs, ys, b, E, (k % n) * b, n⟩ := by
  intro k
  induction k with
  | zero =>
    rw [nextStateN]
    rw [Nat.zero_mod, Nat.zero_mul]
  | succ k ih =>
    rw [nextStateN, ih]
    dsimp only
    rw [next_at xs ys b E n (k % n) hb hE (Nat.mod_lt k hn)]
    dsimp only
    rw [succ_mod_mul k n b hn]

/-- Slicing `b` episodes inside the episode axis of a `[t, e, f]` array
yields a `[t, b, f]` array: the timestep and feature axes are intact and the
batch is full-size. -/
theorem hasShape3_sliceEpisodes {a : List (List (List ℚ))} {t e f : ℕ} (start b : ℕ)
    (h : hasShape3 a t e f = true) (hle : start + b ≤ e) :
    hasShape3 (sliceEpisodes a start b) t b f = true := by
  unfold sliceEpisodes
  unfold hasShape3 at h ⊢
  simp only [Bool.and_eq_true, beq_iff_eq, List.all_eq_true] at h ⊢
  obtain ⟨hlen, hrows⟩ := h
  refine ⟨by simp [hlen], ?_⟩
  intro row hrow
  rw [List.mem_map] at hrow
  obtain ⟨row0, hrow0, rfl⟩ := hrow
  obtain ⟨hrl, hreps⟩ := hrows row0 hrow0
  constructor
  · rw [List.length_take, List.length_drop, hrl]
    omega
  · intro ep hep
    exact hreps ep (List.mem_of_mem_drop (List.mem_of_mem_take hep))

end DatasetRNN

/-- C2 counterexample: a dataset with 0 episodes and `batch_size = 5`
satisfies the claim's hypothesis (5 divides 0, and the constructor accepts
it), yet already the first call to `__next__` fails its internal assertion
`end <= dataset_size` — refuting "the internal assertion never fails" as
stated for every dataset whose episode count is divisible by the batch
size. -/
theorem datasetRNN_cyclic_counterexample :
    DatasetRNN.make ⟨1, 0, 1, [[]]⟩ ⟨1, 0, 1, [[]]⟩ (some 5) =
      .ok ⟨⟨1, 0, 1, [[]]⟩, ⟨1, 0, 1, [[]]⟩, 5, 0, 0, 0⟩ ∧
    (5 : ℕ) ∣ 0 ∧
    DatasetRNN.kthBatch ⟨⟨1, 0, 1, [[]]⟩, ⟨1, 0, 1, [[]]⟩, 5, 0, 0, 0⟩ 0 =
      .error .assertionError :=
  ⟨rfl, ⟨0, rfl⟩, rfl⟩

/-- C2 (amended: the episode count is additionally required to be positive):
for a constructed `DatasetRNN` with a positive episode count `E` divisible by
the batch size `b` (so `n = E / b` batches), the `k`-th call to `__next__`
returns the episode slice `[(k % n)·b, (k % n)·b + b)` of both `xs` and `ys`
with timestep and feature axes intact; the assertion never fails, the slice
always fits (no short batch), the cursor after the call is `((k+1) % n)·b`,
which is 0 exactly when the slice ended at the dataset boundary, and
`n_batches = n`. -/
theorem datasetRNN_cyclic_batches (xs ys : NpArray3) (b : ℕ) (d : DatasetRNN)
    (hmk : DatasetRNN.make xs ys (some b) = .ok d) (hpos : 0 < xs.shape1) (k : ℕ) :
    d.nextStateN k =
      .ok ⟨xs, ys, b, xs.shape1, (k % (xs.shape1 / b)) * b, xs.shape1 / b⟩ ∧
    d.kthBatch k =
      .ok (DatasetRNN.sliceEpisodes xs.data ((k % (xs.shape1 / b)) * b) b,
           DatasetRNN.sliceEpisodes ys.data ((k % (xs.shape1 / b)) * b) b) ∧
    d.nextStateN (k + 1) =
      .ok ⟨xs, ys, b, xs.shape1, ((k + 1) % (xs.shape1 / b)) * b, xs.shape1 / b⟩ ∧
    (k % (xs.shape1 / b)) * b + b ≤ xs.shape1 ∧
    (((k + 1) % (xs.shape1 / b)) * b = 0 ↔
      (k % (xs.shape1 / b)) * b + b = xs.shape1) ∧
    d.n_batches = xs.shape1 / b ∧
    (hasShape3 xs.data xs.shape0 xs.shape1 xs.shape2 = true →
      hasShape3 (DatasetRNN.sliceEpisodes xs.data ((k % (xs.shape1 / b)) * b) b)
        xs.shape0 b xs.shape2 = true) ∧
    (hasShape3 ys.data ys.shape0 ys.shape1 ys.shape2 = true →
      hasShape3 (DatasetRNN.sliceEpisodes ys.data ((k % (xs.shape1 / b)) * b) b)
        ys.shape0 b ys.shape2 = true) := by
  unfold DatasetRNN.make at hmk
  simp only [Option.getD] at hmk
  split_ifs at hmk with h1 h2 h3 h4
  cases hmk
  push_neg at h1 h2 h4
  have hb : 0 < b := Nat.pos_of_ne_zero h3
  have hdvd : b ∣ xs.shape1 := Nat.dvd_of_mod_eq_zero h4
  have hE : xs.shape1 = (xs.shape1 / b) * b := (Nat.div_mul_cancel hdvd).symm
  have hn : 0 < xs.shape1 / b := by
    rcases Nat.eq_zero_or_pos (xs.shape1 / b) with h | h
    · rw [h, Nat.zero_mul] at hE
      omega
    · exact h
  have hjlt : k % (xs.shape1 / b) < xs.shape1 / b := Nat.mod_lt k hn
  have hfit : (k % (xs.shape1 / b)) * b + b ≤ xs.shape1 := by
    calc (k % (xs.shape1 / b)) * b + b = (k % (xs.shape1 / b) + 1) * b := by ring
    _ ≤ (xs.shape1 / b) * b := Nat.mul_le_mul_right b hjlt
    _ = xs.shape1 := hE.symm
  refine ⟨DatasetRNN.nextStateN_cyclic xs ys b xs.shape1 (xs.shape1 / b) hb hE hn k,
    ?_, DatasetRNN.nextStateN_cyclic xs ys b xs.shape1 (xs.shape1 / b) hb hE hn (k + 1),
    hfit, ?_, rfl, ?_, ?_⟩
  · unfold DatasetRNN.kthBatch
    rw [DatasetRNN.nextStateN_cyclic xs ys b xs.shape1 (xs.shape1 / b) hb hE hn k]
    dsimp only
    rw [DatasetRNN.next_at xs ys b xs.shape1 (xs.shape1 / b) (k % (xs.shape1 / b)) hb hE hjlt]
  · rw [← DatasetRNN.succ_mod_mul k (xs.shape1 / b) b hn]
    by_cases hend : k % (xs.shape1 / b) + 1 = xs.shape1 / b
    · rw [if_pos hend]
      constructor
      · intro _
        calc (k % (xs.shape1 / b)) * b + b = (k % (xs.shape1 / b) + 1) * b := by ring
        _ = (xs.shape1 / b) * b := by rw [hend]
        _ = xs.shape1 := hE.symm
      · intro _
        rfl
    · rw [if_neg hend]
      have hposmul : 0 < (k % (xs.shape1 / b) + 1) * b := Nat.mul_pos (by omega) hb
      constructor
      · intro h
        omega
      · intro h
        exfalso
        apply hend
        have hmul : (k % (xs.shape1 / b) + 1) * b = (xs.shape1 / b) * b := by
          calc (k % (xs.shape1 / b) + 1) * b = (k % (xs.shape1 / b)) * b + b := by ring
          _ = xs.shape1 := h
          _ = (xs.shape1 / b) * b := hE
        exact Nat.eq_of_mul_eq_mul_right hb hmul
  · intro hsh
    exact DatasetRNN.hasShape3_sliceEpisodes _ b hsh hfit
  · intro hsh
    refine DatasetRNN.hasShape3_sliceEpisodes _ b hsh ?_
    rw [← h2]
    exact hfit

/-- A concrete `[5, 10, 3]` input array. -/
def xsExample : NpArray3 :=
  ⟨5, 10, 3, List.replicate 5 (List.replicate 10 (List.replicate 3 0))⟩

/-- A concrete `[5, 10, 1]` target array. -/
def ysExample : NpArray3 :=
  ⟨5, 10, 1, List.replicate 5 (List.replicate 10 (List.replicate 1 0))⟩

/-- The dataset built from `xsExample`, `ysExample` with `batch_size = 5`. -/
def dsExample : DatasetRNN := ⟨xsExample, ysExample, 5, 10, 0, 2⟩

/-- Witness for C2 at the spec's instance: shapes `[5,10,3]` and `[5,10,1]`,
`batch_size = 5` (so `n_batches = 2`), and the 3rd call (`k = 2`), which
serves the first 5 episodes again. -/
theorem datasetRNN_cyclic_batches_witness :
    DatasetRNN.nextStateN dsExample 2 =
      .ok ⟨xsExample, ysExample, 5, xsExample.shape1,
        (2 % (xsExample.shape1 / 5)) * 5, xsExample.shape1 / 5⟩ ∧
    DatasetRNN.kthBatch dsExample 2 =
      .ok (DatasetRNN.sliceEpisodes xsExample.data ((2 % (xsExample.shape1 / 5)) * 5) 5,
           DatasetRNN.sliceEpisodes ysExample.data ((2 % (xsExample.shape1 / 5)) * 5) 5) ∧
    DatasetRNN.nextStateN dsExample 3 =
      .ok ⟨xsExample, ysExample, 5, xsExample.shape1,
        (3 % (xsExample.shape1 / 5)) * 5, xsExample.shape1 / 5⟩ ∧
    (2 % (xsExample.shape1 / 5)) * 5 + 5 ≤ xsExample.shape1 ∧
    ((3 % (xsExample.shape1 / 5)) * 5 = 0 ↔
      (2 % (xsExample.shape1 / 5)) * 5 + 5 = xsExample.shape1) ∧
    dsExample.n_batches = xsExample.shape1 / 5 ∧
    (hasShape3 xsExample.data xsExample.shape0 xsExample.shape1 xsExample.shape2 = true →
      hasShape3 (DatasetRNN.sliceEpisodes xsExample.data ((2 % (xsExample.shape1 / 5)) * 5) 5)
        xsExample.shape0 5 xsExample.shape2 = true) ∧
    (hasShape3 ysExample.data ysExample.shape0 ysExample.shape1 ysExample.shape2 = true →
      hasShape3 (DatasetRNN.sliceEpisodes ysExample.data ((2 % (xsExample.shape1 / 5)) * 5) 5)
        ysExample.shape0 5 ysExample.shape2 = true) :=
  datasetRNN_cyclic_batches xsExample ysExample 5 dsExample rfl (by decide) 2

/-! ## `train_model` (rnn_utils.py)

Only the control flow of the training loop is embedded; the network, the
optimizer and the JAX machinery are opaque.  `P` and `O` stand for the opaque
parameter and optimizer-state blobs; `init_params` stands for the value
`model.init` would produce when `params` is not supplied, and `nanInParams`
for `nan_in_dict` on the parameter blob (`ℚ` has no NaN, so the predicate is
injected).

The source function cannot actually return: besides the module-level
`import jax/numpy as jnp` (a `SyntaxError`, so the module does not even
import), the function body references several undefined names on its executed
paths, each embedded below as `.error .nameError` at the corresponding spot:
* with `opt_state = None`, `opt.init(params)` — `opt` is undefined (the
  parameter is named `optimizer`);
* with `n_steps ≥ 1`, the first `train_step` call evaluates `opt.update` and
  `clipped_grads`, both undefined;
* with `n_steps = 0`, after the loop the final check
  `len(validation_loss) > 0` reads `validation_loss`, which is never
  assigned anywhere in the function.

The remaining embedded steps mirror the source in order: the initial
`next(training_dataset)` sample draw (whose exception propagates), the
`params`/`opt_state` parsing, the `losses[loss]` dictionary lookup (a
`KeyError` for an unsupported loss name), the per-iteration
`next(training_dataset)` draw, the skipped plotting branch for `n_steps ≤ 1`,
the `nan_in_dict(params)` check raising `ValueError`, and the loss-NaN check,
which short-circuits because `training_loss` is empty when `n_steps = 0`
(losses are recorded only every 10th step). -/
def train_model {P O : Type} (training_dataset : DatasetRNN)
    (opt_state : Option O) (params : Option P) (n_steps : ℕ) (loss : String)
    (init_params : P) (nanInParams : P → Bool) :
    Except PyError (P × O × List ℚ) :=
  match training_dataset.next with
  | .error e => .error e
  | .ok (_sample_xs, ds1) =>
    let p : P := params.getD init_params
    match opt_state with
    | none => .error .nameError
    | some _o =>
      if loss = "categorical" ∨ loss = "penalized_categorical" then
        if 1 ≤ n_steps then
          match ds1.next with
          | .error e => .error e
          | .ok _ => .error .nameError
        else
          if nanInParams p then .error .valueError
          else .error .nameError
      else .error .keyError

/-- C6 (refuted by the code): `train_model` with `n_steps = 0` and explicitly
supplied params and opt_state does *not* return them with an empty loss
record — it raises `NameError`, because the final NaN check reads the
undefined variable `validation_loss` (and the module itself cannot even be
imported, its first `import` line being a syntax error).  Shown here on a
concrete 1-episode dataset whose first `next` succeeds, for every supplied
parameter and optimizer-state value. -/
theorem train_model_zero_steps_raises :
    ∀ p o : ℚ,
      train_model ⟨⟨1, 1, 1, [[[0]]]⟩, ⟨1, 1, 1, [[[0]]]⟩, 1, 1, 0, 1⟩
        (some o) (some p) 0 "categorical" 0 (fun _ => false) =
        .error .nameError :=
  fun _ _ => rfl
